import Mathlib

/-!
Verification of the agentconfig watcher (cmd/traffic/cmd/manager/internal/mutator/
agentconfig/watcher.go) and of the observable-map contract described by the
watchable test template.  Go maps are embedded as association lists over String
keys; Go map reads and writes become `alookup` and `insertA`; the remote
Kubernetes API and the YAML codec are environment parameters.
-/

set_option linter.all false

namespace Watcher

/-- Association-list lookup, embedding a Go map read m[k]. -/
def alookup {β : Type} : List (String × β) → String → Option β
  | [], _ => none
  | kv :: l, k => if kv.1 = k then some kv.2 else alookup l k

/-- Association-list insert-or-replace, embedding a Go map write m[k] = v. -/
def insertA {β : Type} : List (String × β) → String → β → List (String × β)
  | [], k, v => [(k, v)]
  | kv :: l, k, v => if kv.1 = k then (k, v) :: l else kv :: insertA l k v

/-- Modelled from the spec: the fixed name of the per-namespace configuration
resource (constant agent.ConfigMap of package install/agent, not under src).
Only its identity matters to the watcher code. -/
def agentConfigMapName : String := "telepresence-agents"

/-- Modelled from the spec: the distinguished reserved key holding injector-wide
settings (constant agent.InjectorKey of package install/agent, not under src).
Only its identity matters to the watcher code. -/
def agentInjectorKey : String := "agent-injector"

/-- One diff event, embedding type entry of watcher.go (the Go field namespace is
called ns here because namespace is a Lean keyword). -/
structure Entry where
  name : String
  ns : String
  value : String

deriving instance DecidableEq for Entry

/-- Namespace config cache, embedding configWatcher.data :
map[string]map[string]string. -/
abbrev Cache := List (String × List (String × String))

/-- Embeds the second loop of configWatcher.update: for k, v := range m, when the
(possibly already updated) data map does not hold v at k, record a modify-entry
and write data[k] = v.  The accumulator pair is (data, mods). -/
def modsFold (ns : String) (d : List (String × String)) (acc : List Entry) :
    List (String × String) → List (String × String) × List Entry
  | [] => (d, acc)
  | kv :: rest =>
    if alookup d kv.1 = some kv.2 then modsFold ns d acc rest
    else modsFold ns (insertA d kv.1 kv.2) (acc ++ [Entry.mk kv.1 ns kv.2]) rest

/-- Embeds configWatcher.update (watcher.go lines 316-340).  The first loop
deletes every cached key absent from m and collects the delete-entries; the
second loop (modsFold) collects modify-entries and writes the new values; the
result is the new cache plus the two entry batches handed to writeToChan.
A nil Go map (whole-resource deletion) reads and iterates as the empty list. -/
def update (cache : Cache) (ns : String) (m : List (String × String)) :
    Cache × List Entry × List Entry :=
  let data := (alookup cache ns).getD []
  let dels := (data.filter fun kv => (alookup m kv.1).isNone).map fun kv =>
    Entry.mk kv.1 ns kv.2
  let data1 := data.filter fun kv => (alookup m kv.1).isSome
  let st := modsFold ns data1 [] m
  (insertA cache ns st.1, dels, st.2)

/-- Embeds writeToChan (watcher.go lines 303-314) in the absence of
cancellation: the entries actually delivered on the channel are those whose
name differs from the reserved injector key. -/
def writeToChan (es : List Entry) : List Entry :=
  es.filter fun e => e.name ≠ agentInjectorKey

/-- Watch event type, embedding the watch.Added/Modified/Deleted cases handled
by configWatcher.eventHandler. -/
inductive EventType
  | added
  | modified
  | deleted

deriving instance DecidableEq for EventType

/-- Watch event whose object is a ConfigMap (events carrying another object
type are ignored by the type assertion and not modelled). -/
structure WatchEvent where
  etype : EventType
  cmName : String
  cmNs : String
  cmData : List (String × String)

/-- Embeds the per-event body of configWatcher.eventHandler (watcher.go lines
284-298): a Deleted event diffs against nil (empty) data with no name check;
an Added or Modified event is ignored unless the ConfigMap bears the fixed
resource name, and otherwise diffs against the event's data. -/
def eventHandler (cache : Cache) (ev : WatchEvent) : Cache × List Entry × List Entry :=
  match ev.etype with
  | .deleted => update cache ev.cmNs []
  | .added | .modified =>
    if ev.cmName ≠ agentConfigMapName then (cache, [], [])
    else update cache ev.cmNs ev.cmData

/-- Decoded Agent Config. Modelled from the spec: the agent.Config struct lives
in package install/agent, not under src; only the fields read by watcher.go
(WorkloadName, WorkloadKind, Namespace, AgentName, Create) are embedded, and
the Go field Namespace is called ns here. -/
structure AgentConfig where
  workloadName : String
  workloadKind : String
  ns : String
  agentName : String
  create : Bool

deriving instance DecidableEq for AgentConfig

/-- Outcome of the initial ConfigMaps Get performed by configWatcher.Store:
the resource exists with the given data, it does not exist (IsNotFound), or
the read fails with any other error. -/
inductive GetOutcome
  | found (cmData : List (String × String))
  | notFound
  | getError

deriving instance DecidableEq for GetOutcome

/-- Remote write issued by configWatcher.Store: api.Create of a fresh ConfigMap
holding just the one key, or api.Update of the fetched ConfigMap with the key
merged in. -/
inductive RemoteWrite
  | createCM (cmData : List (String × String))
  | updateCM (cmData : List (String × String))

deriving instance DecidableEq for RemoteWrite

/-- Errors surfaced by configWatcher.Store before any remote write: YAML
encoding failure, or a Get failure other than IsNotFound. -/
inductive StoreErr
  | encodeErr
  | getErr

deriving instance DecidableEq for StoreErr

/-- Embeds the body of configWatcher.Store after the Get (watcher.go lines
192-235).  cmData is none exactly when the Get reported IsNotFound (the Go
create flag).  The snapshot comparison, the conditional cache pre-update and
the early return on equality follow the source line by line; the returned
option is the remote write performed, none when the serialized config equals
the cached value. -/
def storeBody (cache : Cache) (ac : AgentConfig) (updateSnapshot : Bool)
    (yml : String) (cmData : Option (List (String × String))) :
    Cache × Option RemoteWrite :=
  let nm := (alookup cache ac.ns).getD []
  let eq : Bool := decide (alookup nm ac.agentName = some yml)
  let nm1 := if updateSnapshot && !eq then insertA nm ac.agentName yml else nm
  let cache1 :=
    if (alookup cache ac.ns).isSome && !(updateSnapshot && !eq) then cache
    else insertA cache ac.ns nm1
  if eq then (cache1, none)
  else
    match cmData with
    | none => (cache1, some (RemoteWrite.createCM [(ac.agentName, yml)]))
    | some d => (cache1, some (RemoteWrite.updateCM (insertA d ac.agentName yml)))

/-- Embeds configWatcher.Store (watcher.go lines 174-236).  enc is the YAML
encoder (an environment parameter, none on encoding failure), g the outcome of
the initial remote Get.  The call returns the new cache and the remote write
performed, or the error surfaced to the caller. -/
def store (enc : AgentConfig → Option String) (g : GetOutcome) (cache : Cache)
    (ac : AgentConfig) (updateSnapshot : Bool) :
    Except StoreErr (Cache × Option RemoteWrite) :=
  match enc ac with
  | none => Except.error StoreErr.encodeErr
  | some yml =>
    match g with
    | GetOutcome.getError => Except.error StoreErr.getErr
    | GetOutcome.notFound => Except.ok (storeBody cache ac updateSnapshot yml none)
    | GetOutcome.found d => Except.ok (storeBody cache ac updateSnapshot yml (some d))

/-- Workload handle, embedding the part of k8sapi.Workload read by the dispatch
loop: identity plus the pod template (opaque here). -/
structure Workload where
  kind : String
  name : String
  ns : String
  podTemplate : String

deriving instance DecidableEq for Workload

/-- Environment of the dispatch loop: the YAML decode of an entry value, the
k8sapi.GetWorkload resolution (name, namespace, kind), the Generate collaborator
and whether the Store call made for a generated config succeeds.  All four are
external to the watcher; the loop only branches on their outcomes. -/
structure Env where
  decode : String → Option AgentConfig
  getWorkload : String → String → String → Option Workload
  generate : Workload → String → Option AgentConfig
  storeOk : AgentConfig → Bool

/-- Embeds entry.workload (watcher.go lines 63-73): decode the entry value into
an Agent Config, then resolve the owning workload; none on either failure. -/
def entryWorkload (env : Env) (e : Entry) : Option (AgentConfig × Workload) :=
  match env.decode e.value with
  | none => none
  | some ac =>
    match env.getWorkload ac.workloadName ac.ns ac.workloadKind with
    | none => none
    | some wl => some (ac, wl)

/-- Observable side effects of one iteration of the dispatch loop: an error
logged via dlog, a rollout patch issued by triggerRollout, or a call to
configWatcher.Store with the given config and updateSnapshot flag (the store's
own cache and remote effects are embedded separately by `store`). -/
inductive Effect
  | logError
  | rollout (wl : Workload)
  | storeAC (ac : AgentConfig) (updateCache : Bool)

deriving instance DecidableEq for Effect

/-- Embeds the delCh case of configWatcher.Run (watcher.go lines 122-133):
decode and resolve; on failure log and continue; when the config was never
materialized (Create set) do nothing, otherwise trigger a rollout. -/
def processDel (env : Env) (e : Entry) : List Effect :=
  match entryWorkload env e with
  | none => [Effect.logError]
  | some (ac, wl) =>
    if ac.create then [] else [Effect.rollout wl]

/-- Embeds the addCh case of configWatcher.Run (watcher.go lines 134-149):
decode and resolve; on failure log and continue; when Create is set, generate
against the workload's pod template and store the result with updateSnapshot
false (logging a generation or store failure), skipping rollout; otherwise
trigger a rollout. -/
def processMod (env : Env) (e : Entry) : List Effect :=
  match entryWorkload env e with
  | none => [Effect.logError]
  | some (ac, wl) =>
    if ac.create then
      match env.generate wl wl.podTemplate with
      | none => [Effect.logError]
      | some ac2 =>
        if env.storeOk ac2 then [Effect.storeAC ac2 false]
        else [Effect.storeAC ac2 false, Effect.logError]
    else [Effect.rollout wl]

/-- One event arriving on the dispatch loop's delete or modify channel. -/
inductive FeedEvent
  | del (e : Entry)
  | mod (e : Entry)

deriving instance DecidableEq for FeedEvent

/-- Effects of one iteration of the select in configWatcher.Run. -/
def runStep (env : Env) : FeedEvent → List Effect
  | FeedEvent.del e => processDel env e
  | FeedEvent.mod e => processMod env e

/-- Embeds the dispatch loop of configWatcher.Run over a finite event sequence:
every event is processed in order and the loop never returns an error (Run only
fails at Start, before the loop). -/
def runLoop (env : Env) : List FeedEvent → List Effect
  | [] => []
  | ev :: rest => runStep env ev ++ runLoop env rest

/-- Concrete workload used by the dispatch-loop examples. -/
def wlW1 : Workload := ⟨"Deployment", "w1", "n1", "podtpl-w1"⟩

/-- Concrete decoded config for key w1 with Create set. -/
def acW1 : AgentConfig := ⟨"w1", "Deployment", "n1", "w1", true⟩

/-- Concrete config produced by the generator for w1. -/
def acGenW1 : AgentConfig := ⟨"w1", "Deployment", "n1", "w1", false⟩

/-- Concrete dispatch-loop environment: the value yml-w1 decodes to acW1, the
workload w1 resolves to wlW1, generation yields acGenW1 and the store call
succeeds. -/
def envC1 : Env :=
  ⟨fun s => if s = ("yml-w1") then some acW1 else none,
   fun n nsp kd =>
     if n = ("w1") ∧ nsp = ("n1") ∧ kd = ("Deployment") then some wlW1 else none,
   fun wl tpl => if wl = wlW1 ∧ tpl = ("podtpl-w1") then some acGenW1 else none,
   fun _ => true⟩

/-- Concrete entry for key w1 carrying the value yml-w1. -/
def eW1 : Entry := ⟨"w1", "n1", "yml-w1"⟩

/-- Environment in which every decode and every resolution fails. -/
def envBad : Env := ⟨fun _ => none, fun _ _ _ => none, fun _ _ => none, fun _ => true⟩

/-- Entry with an undecodable value. -/
def eBad : Entry := ⟨"x", "n1", "junk"⟩

/-- Concrete config for the Store examples. -/
def acA0 : AgentConfig := ⟨"w0", "Deployment", "n0", "a0", false⟩

/-- Concrete cache holding the serialization y0 of acA0 under (n0, a0). -/
def cacheA0 : Cache := [("n0", [("a0", "y0")])]

/-- Encoder returning y0 for every config. -/
def encY0 : AgentConfig → Option String := fun _ => some ("y0")

/-- Cache whose only key in namespace n1 is the reserved injector key. -/
def cacheInj : Cache := [("n1", [(agentInjectorKey, "v1")])]

/-- Cache whose only key in namespace n2 is the reserved injector key. -/
def cacheInj2 : Cache := [("n2", [(agentInjectorKey, "v2")])]

/-- Cached map a=1, b=2 in namespace nsx: the diffing example of the spec. -/
def cacheAB : Cache := [("nsx", [("a", "1"), ("b", "2")])]

/-- New remote map b=2, c=3: the diffing example of the spec. -/
def mapBC : List (String × String) := [("b", "2"), ("c", "3")]

end Watcher

namespace Watchable

open Watcher (alookup insertA)

/-- Modelled from the spec: a write operation on the observable map (package
watchable is not under src; only its test template is). -/
inductive WOp (V : Type)
  | store (k : String) (v : V)
  | delete (k : String)

/-- Modelled from the spec: effect of one write operation on the map content
(Store upserts, Delete removes the key). -/
def applyWOp {V : Type} : List (String × V) → WOp V → List (String × V)
  | m, WOp.store k v => insertA m k v
  | m, WOp.delete k => m.filter fun kv => kv.1 ≠ k

/-- Modelled from the spec: the map content together with one subscription.
chan is the depth-1 delivery channel (the at-most-one pending snapshot); dirty
records writes coalesced since that snapshot was scheduled. -/
structure WSub (V : Type) where
  map : List (String × V)
  chan : Option (List (String × V))
  dirty : Bool

/-- Modelled from the spec: Subscribe immediately enqueues the current full
snapshot as the first delivery. -/
def wsubscribe {V : Type} (m : List (String × V)) : WSub V :=
  WSub.mk m (some m) false

/-- Modelled from the spec: a write marks a subscription with a pending
delivery dirty (coalescing), and for the first write since the channel was
drained schedules exactly one new snapshot delivery. -/
def wwrite {V : Type} (s : WSub V) (op : WOp V) : WSub V :=
  let m := applyWOp s.map op
  match s.chan with
  | some q => WSub.mk m (some q) true
  | none => WSub.mk m (some m) false

/-- Modelled from the spec: the subscriber reads its channel, obtaining the
pending snapshot if any; coalesced writes schedule the next snapshot, otherwise
the channel becomes empty. -/
def wread {V : Type} (s : WSub V) : Option (List (String × V)) × WSub V :=
  match s.chan with
  | none => (none, s)
  | some q =>
    if s.dirty then (some q, WSub.mk s.map (some s.map) false)
    else (some q, WSub.mk s.map none false)

end Watchable

namespace Watcher

theorem alookup_insertA_self {β : Type} (l : List (String × β)) (k : String) (v : β) :
    alookup (insertA l k v) k = some v := by
  induction l with
  | nil => simp [insertA, alookup]
  | cons kv l ih =>
    by_cases h : kv.1 = k
    · simp [insertA, h, alookup]
    · simp [insertA, h, alookup, ih]

theorem alookup_insertA_ne {β : Type} (l : List (String × β)) (k k' : String) (v : β)
    (h : k' ≠ k) : alookup (insertA l k v) k' = alookup l k' := by
  have hkk : ¬ k = k' := fun hh => h hh.symm
  induction l with
  | nil => simp [insertA, alookup, hkk]
  | cons kv l ih =>
    by_cases hk : kv.1 = k
    · have hk' : ¬ kv.1 = k' := by rw [hk]; exact hkk
      simp only [insertA, if_pos hk, alookup, if_neg hkk, if_neg hk']
    · simp only [insertA, if_neg hk, alookup, ih]

theorem alookup_mem {β : Type} {l : List (String × β)} {k : String} {v : β}
    (h : alookup l k = some v) : (k, v) ∈ l := by
  induction l with
  | nil => simp [alookup] at h
  | cons kv l ih =>
    by_cases hk : kv.1 = k
    · simp only [alookup, hk, if_pos] at h
      obtain ⟨a, b⟩ := kv
      obtain rfl : a = k := hk
      obtain rfl : b = v := by injection h
      exact List.mem_cons_self ..
    · simp only [alookup, hk, if_neg, if_false] at h
      exact List.mem_cons_of_mem _ (ih h)

theorem alookup_isSome_of_mem {β : Type} {l : List (String × β)} {kv : String × β}
    (h : kv ∈ l) : (alookup l kv.1).isSome := by
  induction l with
  | nil => simp at h
  | cons kv' l ih =>
    rcases List.mem_cons.mp h with rfl | hmem
    · simp [alookup]
    · by_cases hk : kv'.1 = kv.1 <;> simp [alookup, hk, ih hmem]

theorem alookup_eq_none_iff {β : Type} {l : List (String × β)} {k : String} :
    alookup l k = none ↔ k ∉ l.map Prod.fst := by
  induction l with
  | nil => simp [alookup]
  | cons kv l ih =>
    by_cases hk : kv.1 = k
    · simp [alookup, hk]
    · have hk2 : ¬ k = kv.1 := fun hh => hk hh.symm
      simp [alookup, hk, hk2, ih]

theorem alookup_eq_some_of_mem_nodup {β : Type} {l : List (String × β)}
    (hl : (l.map Prod.fst).Nodup) {kv : String × β} (h : kv ∈ l) :
    alookup l kv.1 = some kv.2 := by
  induction l with
  | nil => simp at h
  | cons kv' l ih =>
    rw [List.map_cons, List.nodup_cons] at hl
    rcases List.mem_cons.mp h with rfl | hmem
    · simp [alookup]
    · have hne : kv'.1 ≠ kv.1 := by
        intro hh
        exact hl.1 (hh ▸ List.mem_map_of_mem Prod.fst hmem)
      simp [alookup, hne, ih hl.2 hmem]

theorem alookup_eq_some_iff_mem {β : Type} {l : List (String × β)}
    (hl : (l.map Prod.fst).Nodup) {k : String} {v : β} :
    alookup l k = some v ↔ (k, v) ∈ l :=
  ⟨alookup_mem, fun h => alookup_eq_some_of_mem_nodup hl h⟩

theorem alookup_filter_false {β : Type} (p : String × β → Bool)
    (l : List (String × β)) (k : String) (hp : ∀ v, p (k, v) = false) :
    alookup (l.filter p) k = none := by
  induction l with
  | nil => simp [alookup]
  | cons kv l ih =>
    obtain ⟨a, b⟩ := kv
    by_cases hk : a = k
    · subst hk
      simp [List.filter_cons, hp b, ih]
    · by_cases hpk : p (a, b) <;> simp [List.filter_cons, hpk, alookup, hk, ih]

theorem alookup_filter_true {β : Type} (p : String × β → Bool)
    (l : List (String × β)) (k : String) (hp : ∀ v, p (k, v) = true) :
    alookup (l.filter p) k = alookup l k := by
  induction l with
  | nil => simp
  | cons kv l ih =>
    obtain ⟨a, b⟩ := kv
    by_cases hk : a = k
    · subst hk
      simp [List.filter_cons, hp b, alookup, ih]
    · by_cases hpk : p (a, b) <;> simp [List.filter_cons, hpk, alookup, hk, ih]

theorem modsFold_snd (ns : String) (d0 : List (String × String))
    (m : List (String × String)) :
    ∀ (d : List (String × String)) (acc : List Entry),
    (m.map Prod.fst).Nodup →
    (∀ kv ∈ m, alookup d kv.1 = alookup d0 kv.1) →
    (modsFold ns d acc m).2 =
      acc ++ (m.filter fun kv => !decide (alookup d0 kv.1 = some kv.2)).map
        (fun kv => Entry.mk kv.1 ns kv.2) := by
  induction m with
  | nil => intro d acc _ _; simp [modsFold]
  | cons kv rest ih =>
    intro d acc hm hag
    rw [List.map_cons, List.nodup_cons] at hm
    have hhead : alookup d kv.1 = alookup d0 kv.1 := hag kv (List.mem_cons_self ..)
    by_cases hc : alookup d0 kv.1 = some kv.2
    · rw [modsFold, if_pos (hhead.trans hc ▸ rfl)]
      rw [ih d acc hm.2 fun kv' h => hag kv' (List.mem_cons_of_mem _ h)]
      simp [List.filter_cons, hc]
    · rw [modsFold, if_neg (fun hh => hc (hhead ▸ hh))]
      have hag' : ∀ kv' ∈ rest, alookup (insertA d kv.1 kv.2) kv'.1 = alookup d0 kv'.1 := by
        intro kv' h
        have hne : kv'.1 ≠ kv.1 := by
          intro hh
          exact hm.1 (hh ▸ List.mem_map_of_mem Prod.fst h)
        rw [alookup_insertA_ne _ _ _ _ hne]
        exact hag kv' (List.mem_cons_of_mem _ h)
      rw [ih _ _ hm.2 hag']
      simp [List.filter_cons, hc]

theorem modsFold_fst_not_mem (ns : String) (m : List (String × String)) :
    ∀ (d : List (String × String)) (acc : List Entry) (k : String),
    k ∉ m.map Prod.fst →
    alookup (modsFold ns d acc m).1 k = alookup d k := by
  induction m with
  | nil => intro d acc k _; simp [modsFold]
  | cons kv rest ih =>
    intro d acc k hk
    rw [List.map_cons, List.mem_cons, not_or] at hk
    by_cases hc : alookup d kv.1 = some kv.2
    · rw [modsFold, if_pos hc]
      exact ih d acc k hk.2
    · rw [modsFold, if_neg hc, ih _ _ k hk.2,
        alookup_insertA_ne _ _ _ _ hk.1]

theorem modsFold_fst_mem (ns : String) (m : List (String × String)) :
    ∀ (d : List (String × String)) (acc : List Entry),
    (m.map Prod.fst).Nodup → ∀ kv ∈ m,
    alookup (modsFold ns d acc m).1 kv.1 = some kv.2 := by
  induction m with
  | nil => intro d acc _ kv h; simp at h
  | cons kv' rest ih =>
    intro d acc hm kv hkv
    rw [List.map_cons, List.nodup_cons] at hm
    rcases List.mem_cons.mp hkv with rfl | hmem
    · have hnot : kv.1 ∉ rest.map Prod.fst := hm.1
      by_cases hc : alookup d kv.1 = some kv.2
      · rw [modsFold, if_pos hc, modsFold_fst_not_mem ns rest _ _ _ hnot]
        exact hc
      · rw [modsFold, if_neg hc, modsFold_fst_not_mem ns rest _ _ _ hnot]
        exact alookup_insertA_self ..
    · by_cases hc : alookup d kv'.1 = some kv'.2
      · rw [modsFold, if_pos hc]
        exact ih d acc hm.2 kv hmem
      · rw [modsFold, if_neg hc]
        exact ih _ _ hm.2 kv hmem

theorem modsFold_snd_names (ns : String) (m : List (String × String)) :
    ∀ (d : List (String × String)) (acc : List Entry) (e : Entry),
    e ∈ (modsFold ns d acc m).2 → e ∈ acc ∨ e.name ∈ m.map Prod.fst := by
  induction m with
  | nil => intro d acc e h; simp [modsFold] at h; exact Or.inl h
  | cons kv rest ih =>
    intro d acc e h
    rw [List.map_cons]
    by_cases hc : alookup d kv.1 = some kv.2
    · rw [modsFold, if_pos hc] at h
      rcases ih d acc e h with ha | hr
      · exact Or.inl ha
      · exact Or.inr (List.mem_cons_of_mem _ hr)
    · rw [modsFold, if_neg hc] at h
      rcases ih _ _ e h with ha | hr
      · rcases List.mem_append.mp ha with ha' | ha''
        · exact Or.inl ha'
        · rw [List.mem_singleton] at ha''
          subst ha''
          exact Or.inr (List.mem_cons_self ..)
      · exact Or.inr (List.mem_cons_of_mem _ hr)

theorem filter_map_entry (ns : String) (p : Entry → Bool)
    (l : List (String × String)) :
    ((l.map fun kv => Entry.mk kv.1 ns kv.2).filter p)
      = ((l.filter fun kv => p (Entry.mk kv.1 ns kv.2)).map
          fun kv => Entry.mk kv.1 ns kv.2) := by
  induction l with
  | nil => rfl
  | cons kv l ih =>
    by_cases h : p (Entry.mk kv.1 ns kv.2) <;>
      simp [List.filter_cons, h, ih]

theorem update_dels_mem (cache : Cache) (ns : String) (m : List (String × String))
    (hd : (((alookup cache ns).getD []).map Prod.fst).Nodup) (k v : String) :
    Entry.mk k ns v ∈ (update cache ns m).2.1 ↔
      alookup ((alookup cache ns).getD []) k = some v ∧ alookup m k = none := by
  show Entry.mk k ns v ∈ ((((alookup cache ns).getD []).filter
      fun kv => (alookup m kv.1).isNone).map fun kv => Entry.mk kv.1 ns kv.2) ↔ _
  constructor
  · intro h
    rcases List.mem_map.mp h with ⟨kv, hmem, heq⟩
    rcases List.mem_filter.mp hmem with ⟨hdata, hp⟩
    simp only [Entry.mk.injEq] at heq
    obtain ⟨h1, -, h2⟩ := heq
    have hkv : kv = (k, v) := Prod.ext h1 h2
    subst hkv
    refine ⟨alookup_eq_some_of_mem_nodup hd hdata, ?_⟩
    exact Option.isNone_iff_eq_none.mp hp
  · rintro ⟨h1, h2⟩
    refine List.mem_map.mpr ⟨(k, v), List.mem_filter.mpr ⟨alookup_mem h1, ?_⟩, rfl⟩
    simp [h2]

theorem update_mods_eq (cache : Cache) (ns : String) (m : List (String × String))
    (hm : (m.map Prod.fst).Nodup) :
    (update cache ns m).2.2 =
      (m.filter fun kv =>
          !decide (alookup ((alookup cache ns).getD []) kv.1 = some kv.2)).map
        (fun kv => Entry.mk kv.1 ns kv.2) := by
  show (modsFold ns (((alookup cache ns).getD []).filter
      fun kv => (alookup m kv.1).isSome) [] m).2 = _
  rw [modsFold_snd ns ((alookup cache ns).getD []) m _ [] hm ?hag]
  · simp
  case hag =>
    intro kv hkv
    refine alookup_filter_true _ _ _ fun v' => ?_
    simp [alookup_isSome_of_mem hkv]

theorem update_mods_mem (cache : Cache) (ns : String) (m : List (String × String))
    (hm : (m.map Prod.fst).Nodup) (k v : String) :
    Entry.mk k ns v ∈ (update cache ns m).2.2 ↔
      alookup m k = some v ∧ ¬ alookup ((alookup cache ns).getD []) k = some v := by
  rw [update_mods_eq cache ns m hm]
  constructor
  · intro h
    rcases List.mem_map.mp h with ⟨kv, hmem, heq⟩
    rcases List.mem_filter.mp hmem with ⟨hin, hp⟩
    simp only [Entry.mk.injEq] at heq
    obtain ⟨h1, -, h2⟩ := heq
    have hkv : kv = (k, v) := Prod.ext h1 h2
    subst hkv
    refine ⟨alookup_eq_some_of_mem_nodup hm hin, ?_⟩
    simpa using hp
  · rintro ⟨h1, h2⟩
    refine List.mem_map.mpr ⟨(k, v), List.mem_filter.mpr ⟨alookup_mem h1, ?_⟩, rfl⟩
    simpa using h2

theorem update_cache_lookup (cache : Cache) (ns : String)
    (m : List (String × String)) (hm : (m.map Prod.fst).Nodup) (k : String) :
    alookup ((alookup (update cache ns m).1 ns).getD []) k = alookup m k := by
  show alookup ((alookup (insertA cache ns (modsFold ns
      (((alookup cache ns).getD []).filter fun kv => (alookup m kv.1).isSome)
      [] m).1) ns).getD []) k = _
  rw [alookup_insertA_self, Option.getD_some]
  cases h : alookup m k with
  | none =>
    rw [modsFold_fst_not_mem ns m _ _ _ (alookup_eq_none_iff.mp h)]
    refine alookup_filter_false _ _ _ fun v' => ?_
    simp [h]
  | some v =>
    exact modsFold_fst_mem ns m _ _ hm (k, v) (alookup_mem h)

theorem runLoop_append (env : Env) (l1 l2 : List FeedEvent) :
    runLoop env (l1 ++ l2) = runLoop env l1 ++ runLoop env l2 := by
  induction l1 with
  | nil => simp [runLoop]
  | cons ev rest ih => simp [runLoop, ih]

theorem update_dels_names (cache : Cache) (ns : String) (m : List (String × String))
    (e : Entry) (he : e ∈ (update cache ns m).2.1) : alookup m e.name = none := by
  have he' : e ∈ ((((alookup cache ns).getD []).filter
      fun kv => (alookup m kv.1).isNone).map fun kv => Entry.mk kv.1 ns kv.2) := he
  rcases List.mem_map.mp he' with ⟨kv, hmem, heq⟩
  rcases List.mem_filter.mp hmem with ⟨-, hp⟩
  have hname : e.name = kv.1 := by rw [← heq]
  rw [hname]
  exact Option.isNone_iff_eq_none.mp hp

theorem update_mods_names (cache : Cache) (ns : String) (m : List (String × String))
    (e : Entry) (he : e ∈ (update cache ns m).2.2) : e.name ∈ m.map Prod.fst := by
  have he' : e ∈ (modsFold ns (((alookup cache ns).getD []).filter
      fun kv => (alookup m kv.1).isSome) [] m).2 := he
  rcases modsFold_snd_names ns m _ [] e he' with h | h
  · simp at h
  · exact h

theorem update_nil (cache : Cache) (ns : String) :
    update cache ns [] = (insertA cache ns [],
      ((alookup cache ns).getD []).map (fun kv => Entry.mk kv.1 ns kv.2), []) := by
  unfold update
  simp [alookup, modsFold]

theorem handle_deleted (cache : Cache) (nm ns : String) (d : List (String × String)) :
    writeToChan (eventHandler cache (WatchEvent.mk EventType.deleted nm ns d)).2.1 =
        (((alookup cache ns).getD []).filter fun kv => kv.1 ≠ agentInjectorKey).map
          (fun kv => Entry.mk kv.1 ns kv.2) ∧
      (eventHandler cache (WatchEvent.mk EventType.deleted nm ns d)).2.2 = [] ∧
      alookup (eventHandler cache (WatchEvent.mk EventType.deleted nm ns d)).1 ns
        = some [] := by
  have hev : eventHandler cache (WatchEvent.mk EventType.deleted nm ns d)
      = update cache ns [] := rfl
  rw [hev, update_nil]
  refine ⟨?_, rfl, ?_⟩
  · rw [writeToChan, filter_map_entry]
  · exact alookup_insertA_self ..

end Watcher

namespace Watchable

theorem wwrite_foldl_chan {V : Type} (ops : List (WOp V)) :
    ∀ (s : WSub V) (q : List (String × V)), s.chan = some q →
    (ops.foldl wwrite s).chan = some q := by
  induction ops with
  | nil => intro s q h; simpa using h
  | cons op rest ih =>
    intro s q h
    rw [List.foldl_cons]
    apply ih
    simp [wwrite, h]

end Watchable

namespace Watcher

/-- C1 counterexample: at the concrete environment envC1 and modify-entry eW1
(whose config decodes with Create set, whose workload resolves and whose
generation succeeds) the dispatch loop persists the generated config through
the Config Store with updateCache = false and never with updateCache = true,
refuting the claim that the store is performed with the cache pre-updated. -/
theorem c1_counterexample :
    processMod envC1 eW1 = [Effect.storeAC acGenW1 false] ∧
      Effect.storeAC acGenW1 true ∉ processMod envC1 eW1 := by
  constructor
  · decide
  · decide

/-- C1 (amended): for every modify-entry whose decoded Agent Config has create
set and whose workload resolves, the dispatch loop invokes the generator
against the workload's pod template and, when generation succeeds, persists
the result via the Config Store with updateCache = false — so the self-inflicted
modify event will be observed again and is what later triggers the rollout —
and it issues no rollout patch while processing that entry. -/
theorem c1_theorem (env : Env) (e : Entry) (ac : AgentConfig) (wl : Workload)
    (ac2 : AgentConfig) (h : entryWorkload env e = some (ac, wl))
    (hc : ac.create = true) (hg : env.generate wl wl.podTemplate = some ac2) :
    processMod env e = Effect.storeAC ac2 false ::
        (if env.storeOk ac2 then [] else [Effect.logError]) ∧
      ∀ w, Effect.rollout w ∉ processMod env e := by
  have hp : processMod env e = Effect.storeAC ac2 false ::
      (if env.storeOk ac2 then [] else [Effect.logError]) := by
    simp only [processMod, h, hc, hg]
    cases hs : env.storeOk ac2 <;> simp [hs]
  refine ⟨hp, fun w => ?_⟩
  rw [hp]
  cases hs : env.storeOk ac2 <;> simp

/-- C1 witness: the amended claim evaluated at envC1 and eW1. -/
theorem c1_witness :
    processMod envC1 eW1 = Effect.storeAC acGenW1 false ::
      (if envC1.storeOk acGenW1 then [] else [Effect.logError]) :=
  (c1_theorem envC1 eW1 acW1 wlW1 acGenW1 (by decide) (by decide) (by decide)).1

/-- C2: for every cached namespace map and new remote map (Go maps, hence both
key lists duplicate-free), the diff step computes a delete-entry for exactly
the cached keys absent from the new map, carrying the old cached value, a
modify-entry for exactly the keys that are new or whose value differs, carrying
the new value, nothing for unchanged keys, and afterwards the namespace's cache
agrees with the new map on every key. -/
theorem c2_theorem (cache : Cache) (ns : String) (m : List (String × String))
    (hd : (((alookup cache ns).getD []).map Prod.fst).Nodup)
    (hm : (m.map Prod.fst).Nodup) :
    (∀ k v, Entry.mk k ns v ∈ (update cache ns m).2.1 ↔
        alookup ((alookup cache ns).getD []) k = some v ∧ alookup m k = none) ∧
      (∀ k v, Entry.mk k ns v ∈ (update cache ns m).2.2 ↔
        alookup m k = some v ∧
          ¬ alookup ((alookup cache ns).getD []) k = some v) ∧
      ∀ k, alookup ((alookup (update cache ns m).1 ns).getD []) k = alookup m k :=
  ⟨fun k v => update_dels_mem cache ns m hd k v,
   fun k v => update_mods_mem cache ns m hm k v,
   fun k => update_cache_lookup cache ns m hm k⟩

/-- C2 witness: the diffing example of the spec, cached a=1 b=2 against new
b=2 c=3 in namespace nsx: a becomes a delete-entry, c a modify-entry, and the
cache afterwards holds c=3. -/
theorem c2_witness :
    Entry.mk ("a") ("nsx") ("1") ∈ (update cacheAB ("nsx") mapBC).2.1 ∧
      Entry.mk ("c") ("nsx") ("3") ∈ (update cacheAB ("nsx") mapBC).2.2 ∧
      alookup ((alookup (update cacheAB ("nsx") mapBC).1 ("nsx")).getD []) ("c")
        = some ("3") :=
  ⟨((c2_theorem cacheAB ("nsx") mapBC (by decide) (by decide)).1 ("a") ("1")).mpr
    (by decide),
   ((c2_theorem cacheAB ("nsx") mapBC (by decide) (by decide)).2.1 ("c") ("3")).mpr
    (by decide),
   by rw [(c2_theorem cacheAB ("nsx") mapBC (by decide) (by decide)).2.2 ("c")]; decide⟩

/-- C3: within one computed diff, the delete-entries and the modify-entries
never share a key. -/
theorem c3_theorem (cache : Cache) (ns : String) (m : List (String × String))
    (e e' : Entry) (he : e ∈ (update cache ns m).2.1)
    (he' : e' ∈ (update cache ns m).2.2) : e.name ≠ e'.name := by
  intro heq
  have h1 := update_dels_names cache ns m e he
  have h2 := update_mods_names cache ns m e' he'
  rw [← heq] at h2
  exact alookup_eq_none_iff.mp h1 h2

/-- C3 witness: in the spec's diffing example the delete-entry a and the
modify-entry c bear different keys. -/
theorem c3_witness :
    (Entry.mk ("a") ("nsx") ("1")).name ≠ (Entry.mk ("c") ("nsx") ("3")).name :=
  c3_theorem cacheAB ("nsx") mapBC _ _ (by decide) (by decide)

/-- C4 counterexample: with the serialized config byte-identical to the value
cached for (n0, a0) but the initial remote Get failing with an error other than
not-found, Store surfaces an error instead of returning without one, refuting
the claim as stated. -/
theorem c4_counterexample :
    store encY0 GetOutcome.getError cacheA0 acA0 false =
      Except.error StoreErr.getErr := rfl

/-- C4 (amended): whenever the initial remote read succeeds or reports
not-found, and the serialized Agent Config is byte-identical to the value
cached for its namespace and agent name, Store returns without error, performs
no remote write, and leaves the cache unchanged. -/
theorem c4_theorem (enc : AgentConfig → Option String) (g : GetOutcome)
    (cache : Cache) (ac : AgentConfig) (us : Bool) (yml : String)
    (henc : enc ac = some yml) (hg : g ≠ GetOutcome.getError)
    (hc : alookup ((alookup cache ac.ns).getD []) ac.agentName = some yml) :
    store enc g cache ac us = Except.ok (cache, none) := by
  have hsome : (alookup cache ac.ns).isSome = true := by
    cases h : alookup cache ac.ns with
    | none => rw [h] at hc; simp [alookup] at hc
    | some nm => simp
  have hbody : ∀ cmData, storeBody cache ac us yml cmData = (cache, none) := by
    intro cmData
    simp [storeBody, hc, hsome]
  cases g with
  | getError => exact absurd rfl hg
  | notFound => simp only [store, henc]; rw [hbody none]
  | found d => simp only [store, henc]; rw [hbody (some d)]

/-- C4 witness: the amended claim evaluated with the concrete cache cacheA0. -/
theorem c4_witness :
    store encY0 GetOutcome.notFound cacheA0 acA0 false =
      Except.ok (cacheA0, none) :=
  c4_theorem encY0 GetOutcome.notFound cacheA0 acA0 false ("y0") rfl
    (by decide) (by decide)

/-- C5: a delete-entry whose config decodes with create set and whose workload
resolves triggers no rollout; the rollout is triggered exactly when create is
false. -/
theorem c5_theorem (env : Env) (e : Entry) (ac : AgentConfig) (wl : Workload)
    (h : entryWorkload env e = some (ac, wl)) :
    (ac.create = true → processDel env e = []) ∧
      (ac.create = false → processDel env e = [Effect.rollout wl]) := by
  constructor <;> intro hc <;> simp [processDel, h, hc]

/-- C5 witness: a delete-entry for eW1, whose config has Create set, produces
no effect at all. -/
theorem c5_witness : processDel envC1 eW1 = [] :=
  (c5_theorem envC1 eW1 acW1 wlW1 (by decide)).1 (by decide)

/-- C6 counterexample: with the reserved injector key cached in namespace n1, a
whole-resource deletion dispatches no delete-entry at all, refuting the claim
that every previously cached key is dispatched as a delete-entry. -/
theorem c6_counterexample :
    alookup ((alookup cacheInj ("n1")).getD []) agentInjectorKey = some ("v1") ∧
      writeToChan (eventHandler cacheInj
        (WatchEvent.mk EventType.deleted agentConfigMapName ("n1") [])).2.1 = [] := by
  constructor
  · decide
  · decide

/-- C6 (amended): on a whole-resource deletion event, every key previously
cached for that namespace except the reserved injector-settings key is
dispatched as an individual delete-entry carrying its last cached value, no
modify-entry is dispatched, and the namespace's cache is left empty. -/
theorem c6_theorem (cache : Cache) (nm ns : String) (d : List (String × String)) :
    writeToChan (eventHandler cache (WatchEvent.mk EventType.deleted nm ns d)).2.1 =
        (((alookup cache ns).getD []).filter fun kv => kv.1 ≠ agentInjectorKey).map
          (fun kv => Entry.mk kv.1 ns kv.2) ∧
      (eventHandler cache (WatchEvent.mk EventType.deleted nm ns d)).2.2 = [] ∧
      alookup (eventHandler cache (WatchEvent.mk EventType.deleted nm ns d)).1 ns
        = some [] :=
  handle_deleted cache nm ns d

/-- C7: an entry named with the reserved injector-settings key never reaches
the delete or the modify channel, whatever the diff did to it. -/
theorem c7_theorem (cache : Cache) (ns : String) (m : List (String × String))
    (e : Entry)
    (h : e ∈ writeToChan (update cache ns m).2.1 ∨
      e ∈ writeToChan (update cache ns m).2.2) :
    e.name ≠ agentInjectorKey := by
  rcases h with h | h <;>
  · have hp := (List.mem_filter.mp h).2
    simpa using hp

/-- C7 witness: the dispatched modify-entry w1 of a concrete diff is not the
injector key. -/
theorem c7_witness : (Entry.mk ("w1") ("n1") ("v")).name ≠ agentInjectorKey :=
  c7_theorem [] ("n1") [(("w1"), ("v"))] (Entry.mk ("w1") ("n1") ("v"))
    (Or.inr (by decide))

/-- C8: an entry that fails to decode or whose workload cannot be resolved
yields only a logged error — no rollout, no store — and the dispatch loop
processes all surrounding events normally, surfacing no error. -/
theorem c8_theorem (env : Env) (e : Entry) (h : entryWorkload env e = none)
    (ev : FeedEvent) (hev : ev = FeedEvent.del e ∨ ev = FeedEvent.mod e)
    (pre post : List FeedEvent) :
    runStep env ev = [Effect.logError] ∧
      runLoop env (pre ++ ev :: post) =
        runLoop env pre ++ Effect.logError :: runLoop env post := by
  have h1 : runStep env ev = [Effect.logError] := by
    rcases hev with rfl | rfl
    · simp [runStep, processDel, h]
    · simp [runStep, processMod, h]
  refine ⟨h1, ?_⟩
  rw [runLoop_append]
  have h2 : runLoop env (ev :: post) = runStep env ev ++ runLoop env post := rfl
  rw [h2, h1]
  rfl

/-- C8 witness: the failing entry eBad between two other events is logged and
the loop processes the rest. -/
theorem c8_witness :
    runStep envBad (FeedEvent.del eBad) = [Effect.logError] ∧
      runLoop envBad ([FeedEvent.mod eBad] ++ FeedEvent.del eBad ::
          [FeedEvent.mod eBad]) =
        runLoop envBad [FeedEvent.mod eBad] ++ Effect.logError ::
          runLoop envBad [FeedEvent.mod eBad] :=
  c8_theorem envBad eBad (by decide) (FeedEvent.del eBad) (Or.inl rfl)
    [FeedEvent.mod eBad] [FeedEvent.mod eBad]

end Watcher

namespace Watchable

/-- C9: a fresh subscription delivers, as its first and only pending snapshot,
exactly the full map content at subscription time, whatever writes arrive
before the subscriber first reads; and with no write at all there is no second
delivery. -/
theorem c9_theorem (V : Type) (m : List (String × V)) (ops : List (WOp V)) :
    (wread (ops.foldl wwrite (wsubscribe m))).1 = some m ∧
      (wread (wread (wsubscribe m)).2).1 = none := by
  constructor
  · have hch : (ops.foldl wwrite (wsubscribe m)).chan = some m :=
      wwrite_foldl_chan ops (wsubscribe m) m rfl
    cases hfold : ops.foldl wwrite (wsubscribe m) with
    | mk mp ch di =>
      rw [hfold] at hch
      simp only at hch
      subst hch
      cases di <;> simp [wread]
  · rfl

end Watchable

namespace Watcher

/-- C10 counterexample: a Deleted event (here carrying a differently named
ConfigMap) on a namespace whose cache holds only the reserved injector key
dispatches no delete-entry at all, refuting the claim that delete-entries are
dispatched for every cached key. -/
theorem c10_counterexample :
    alookup ((alookup cacheInj2 ("n2")).getD []) agentInjectorKey = some ("v2") ∧
      writeToChan (eventHandler cacheInj2
        (WatchEvent.mk EventType.deleted ("other-map") ("n2") [])).2.1 = [] := by
  constructor
  · decide
  · decide

/-- C10 (amended): the configuration-resource name filter applies only to Added
and Modified events: a Deleted event, whatever ConfigMap name it carries,
clears the namespace cache and dispatches delete-entries for every cached key
except the reserved injector-settings key, while an Added or Modified event
whose ConfigMap name differs from the fixed resource name leaves the state
unchanged and dispatches nothing. -/
theorem c10_theorem (cache : Cache) (nm ns : String) (d : List (String × String)) :
    (writeToChan (eventHandler cache (WatchEvent.mk EventType.deleted nm ns d)).2.1 =
        (((alookup cache ns).getD []).filter fun kv => kv.1 ≠ agentInjectorKey).map
          (fun kv => Entry.mk kv.1 ns kv.2) ∧
      alookup (eventHandler cache (WatchEvent.mk EventType.deleted nm ns d)).1 ns
        = some []) ∧
    (nm ≠ agentConfigMapName →
      eventHandler cache (WatchEvent.mk EventType.added nm ns d) = (cache, [], []) ∧
      eventHandler cache (WatchEvent.mk EventType.modified nm ns d)
        = (cache, [], [])) := by
  refine ⟨⟨(handle_deleted cache nm ns d).1, (handle_deleted cache nm ns d).2.2⟩, ?_⟩
  intro hne
  constructor <;> simp [eventHandler, hne]

/-- C10 witness: an Added event for a differently named ConfigMap is ignored. -/
theorem c10_witness :
    eventHandler cacheAB (WatchEvent.mk EventType.added ("other-map") ("nsx")
        [(("a"), ("9"))]) = (cacheAB, [], []) :=
  ((c10_theorem cacheAB ("other-map") ("nsx") [(("a"), ("9"))]).2 (by decide)).1

end Watcher
